import Mathlib

/-!
Verification of the Reddit research pipeline (src/app.py).

Python strings are modelled as lists of characters (`Str`), matching
Python code-point indexing and slicing.  Fallible operations return
`Option`.  The language-model API is an external collaborator and is
modelled as an explicit function parameter (`respond`): the parsed JSON
mapping returned for a batch payload.  Side effects that carry no data
(timer callback, `time.sleep`, the random sample preview) are omitted;
the UI progress-bar fractions and status-slot writes, which the claims
are about, are collected in an explicit trace.
-/

namespace RedditResearch

/-- Python `str` modelled as a list of code points. -/
abbrev Str := List Char

/-- Embed a Lean string literal into the model representation. -/
def str (s : String) : Str := s.data

/-- A parsed JSON object with string keys and string values, as the model
returns per thread (keys gist, insight1, insight2, sentiment). -/
abbrev Summary := List (Str × Str)

/-- One thread record as built by `fetch_threads` (src/app.py lines 83-90).
The Python dict has keys id, title, body, comments, url, created; the
`summary` key is absent until `summarise_threads` attaches it, modelled
as an `Option` that starts out `none`. -/
structure Thread where
  id : Str
  title : Str
  body : Str
  comments : Str
  url : Str
  created : Str
  summary : Option Summary := none
deriving DecidableEq, Repr

/-- The per-thread payload entry of a summarisation batch
(src/app.py lines 99-102):
`t["id"]: f"{t['title']}\n\n{t['body'][:4000]}\n\nComments:\n{t['comments'][:6000]}"`. -/
def payloadEntry (t : Thread) : Str × Str :=
  (t.id,
    t.title ++ str "\n\n" ++ t.body.take 4000 ++ str "\n\nComments:\n"
      ++ t.comments.take 6000)

/-- The parsed response of one language-model summarisation call:
a mapping keyed by thread id. -/
abbrev SummaryMap := List (Str × Summary)

/-- Attach summaries to one batch (src/app.py lines 117-120):
`for t in chunk: t["summary"] = summaries.get(t["id"], {})` where
`summaries` is the parsed response for the chunk payload.  The empty
Python dict `.get` default is the empty mapping `[]`. -/
def applyBatch (respond : List (Str × Str) → SummaryMap)
    (chunk : List Thread) : List Thread :=
  let summaries := respond (chunk.map payloadEntry)
  chunk.map (fun t => { t with summary := some ((List.lookup t.id summaries).getD []) })

/-- The consecutive slices `threads[i:i+b]` for `i = 0, b, 2b, ...` taken by
the loop `for i in range(0, total, batch)` (src/app.py lines 97-98).
For `b ≥ 1` this is exactly Python's slicing; Python raises `ValueError`
on a zero `range` step, a case no caller exercises (the one call site
uses the default 6). -/
def chunks (b : Nat) : List α → List (List α)
  | [] => []
  | x :: xs => (x :: xs.take (b - 1)) :: chunks b (xs.drop (b - 1))
termination_by l => l.length
decreasing_by simp [List.length_drop]; omega

/-- Observable trace of one `summarise_threads` run: the mutated thread
list, the request payload of each language-model call, the completion
fraction written to the progress bar after each batch, and the strings
written to the status slot, in order. -/
structure SummariseTrace where
  out : List Thread
  calls : List (List (Str × Str))
  fracs : List ℚ
  statuses : List Str
deriving Repr

/-- The batch loop of `summarise_threads` (src/app.py lines 97-125),
processing the remaining chunks with `done` threads already summarised
out of `total`.  Each iteration writes one status line (the first 80
characters of the chunk head title; a chunk produced by `chunks` is
never empty, so the `getD` default is dead), issues one model call,
attaches the summaries, and reports `done/total` (exact rational, the
Python float division at these magnitudes).  After the last batch the
completion status is written. -/
def runChunks (respond : List (Str × Str) → SummaryMap) (total : Nat) :
    Nat → List (List Thread) → SummariseTrace
  | _, [] => ⟨[], [], [], [str "**Summarising complete!**"]⟩
  | done, c :: cs =>
    let payload := c.map payloadEntry
    let c' := applyBatch respond c
    let done' := done + c.length
    let rest := runChunks respond total done' cs
    ⟨c' ++ rest.out, payload :: rest.calls,
      ((done' : ℚ) / (total : ℚ)) :: rest.fracs,
      (str "**Summarising:** " ++ ((c.head?.map (fun t => t.title.take 80)).getD [])
        ++ str "…") :: rest.statuses⟩

/-- `summarise_threads` (src/app.py lines 94-125): partitions the threads
into consecutive batches of `batch` and runs the batch loop from
`done = 0` with `total = len(threads)`. -/
def summarise_threads (respond : List (Str × Str) → SummaryMap)
    (threads : List Thread) (batch : Nat) : SummariseTrace :=
  runChunks respond threads.length 0 (chunks batch threads)

/-- One corpus line of `generate_report` (src/app.py line 129):
`f"{t['title']} – {t['summary'].get('gist','')} [URL]({t['url']})"`.
`t['summary']` raises `KeyError` when the key is absent, modelled by
`none`; `.get('gist','')` defaults to the empty string. -/
def corpusLines : List Thread → Option (List Str)
  | [] => some []
  | t :: ts =>
    match t.summary, corpusLines ts with
    | some m, some rest =>
      some ((t.title ++ str " – " ++ (List.lookup (str "gist") m).getD []
        ++ str " [URL](" ++ t.url ++ str ")") :: rest)
    | _, _ => none

/-- The corpus of `generate_report` (src/app.py lines 128-130): the lines
joined with a blank line and sliced to the first 15000 characters. -/
def corpus (threads : List Thread) : Option Str :=
  (corpusLines threads).map (fun ls => (List.intercalate (str "\n\n") ls).take 15000)

/-- The corpus line of a summary-enriched thread, the value `corpusLines`
produces when the summary is present. -/
def enrichedLine (t : Thread) : Str :=
  t.title ++ str " – " ++ (List.lookup (str "gist") (t.summary.getD [])).getD []
    ++ str " [URL](" ++ t.url ++ str ")"

/-- The joined, untruncated corpus of a summary-enriched thread list. -/
def corpusJoined (threads : List Thread) : Str :=
  List.intercalate (str "\n\n") (threads.map enrichedLine)

/-- Python `str.splitlines` restricted to the line boundaries `\r\n`,
`\n` and `\r` (the questions text is typed into a text area; the exotic
Unicode boundaries Python also recognises do not change the claims). -/
def splitLines : Str → List Str
  | [] => []
  | '\r' :: '\n' :: rest => [] :: splitLines rest
  | '\n' :: rest => [] :: splitLines rest
  | '\r' :: rest => [] :: splitLines rest
  | c :: rest =>
    match splitLines rest with
    | [] => [[c]]
    | l :: ls => (c :: l) :: ls

/-- Python `str.strip()`: remove leading and trailing whitespace. -/
def pyStrip (s : Str) : Str :=
  ((s.dropWhile Char.isWhitespace).reverse.dropWhile Char.isWhitespace).reverse

/-- The non-blank questions: each line stripped, blank lines discarded
(the comprehension `[q.strip() for q in qs_text.splitlines() if q.strip()]`,
src/app.py line 172). -/
def nonBlankQuestions (qs_text : Str) : List Str :=
  ((splitLines qs_text).map pyStrip).filter (fun q => !q.isEmpty)

/-- The questions kept for the run (src/app.py line 172): the non-blank
questions sliced to the first 5. -/
def parseQuestions (qs_text : Str) : List Str :=
  (nonBlankQuestions qs_text).take 5

/-- Outcome of pressing the run button (src/app.py lines 174-180): the
missing-subreddit and missing-questions guards each show an error and
stop before any pipeline stage executes; otherwise the pipeline runs
with the parsed questions. -/
inductive RunOutcome where
  | blockedNoSubreddit
  | blockedNoQuestions
  | proceeds (questions : List Str)
deriving DecidableEq, Repr

/-- The input validation gate (src/app.py lines 174-180): `subreddit` is
the already-stripped text input. -/
def startRun (subreddit : Str) (qs_text : Str) : RunOutcome :=
  let questions := parseQuestions qs_text
  if subreddit.isEmpty then RunOutcome.blockedNoSubreddit
  else if questions.isEmpty then RunOutcome.blockedNoQuestions
  else RunOutcome.proceeds questions

/-- A `StringIO` buffer write: appends to the buffer contents. -/
def stringIOWrite (buf : Str) (s : Str) : Str := buf ++ s

/-- The text export (src/app.py lines 205-207): a fresh `StringIO`, one
`write` of the report, `getvalue()` handed to the download button. -/
def toText (report : Str) : Str :=
  stringIOWrite [] report

/-- `PDF.chapter_body` (src/app.py lines 220-225): attempts
`self.multi_cell(0, 7, unidecode(text))` inside a `try`; on any raised
exception the `except` branch writes the literal string `"Exception"`
instead.  `tryRender` abstracts the attempt (the `unidecode`
transliteration followed by the cell layout): `some body` is the body
content successfully written, `none` a raised exception. -/
def chapter_body (tryRender : Str → Option Str) (text : Str) : Str :=
  match tryRender text with
  | some body => body
  | none => str "Exception"

/-- The names bound in the module scope of src/app.py at the moment line
259 (`pdf_bytes = build_pdf(report_md)`) executes: the imports (lines
8-17), the module definitions and UI bindings, and the names assigned
inside the run button block before line 259.  `pwd` is absent: on an
authenticated run the password block (lines 25-33) does not execute. -/
def moduleScopeAt259 : List String :=
  ["os", "json", "time", "random", "io", "datetime", "timezone",
   "List", "Dict", "Callable", "unidecode", "st", "load_dotenv", "openai",
   "praw", "FPDF", "REDDIT_CLIENT_ID", "REDDIT_CLIENT_SECRET",
   "REDDIT_USER_AGENT", "reddit", "GENRE_DEFAULT_SUB", "fetch_threads",
   "summarise_threads", "generate_report", "ticker", "start_time", "tick",
   "col1", "col2", "genre_input", "n_posts", "subreddit", "qs_text",
   "questions", "threads", "progress", "status", "sample_preview",
   "report_md", "txt_buf", "PDF", "pdf", "pdf_output"]

/-- The attributes of the second `class PDF` (src/app.py lines 237-258).
A Python class body binds its names as attributes of the class object,
not in the enclosing scope, so `build_pdf` lives here and nowhere else. -/
def classPDFAttrs : List String :=
  ["header", "footer", "build_pdf"]

/-- Result of evaluating line 259 of src/app.py. -/
inductive PdfExportResult where
  | ok (content : Str)
  | nameError (name : String)
deriving DecidableEq, Repr

/-- Evaluation of `pdf_bytes = build_pdf(report_md)` (src/app.py line
259): the bare name `build_pdf` is resolved against the module scope;
if it resolved, the call would produce the rendered bytes (the `ok`
payload is never reached, so its value is irrelevant and the report is
returned as a placeholder). -/
def toPdfAt259 (report : Str) : PdfExportResult :=
  if moduleScopeAt259.contains "build_pdf" then PdfExportResult.ok report
  else PdfExportResult.nameError "build_pdf"

/-- Erase the summary annotation of a thread, keeping every other field. -/
def eraseSummary (t : Thread) : Thread := { t with summary := none }

/-! ### Helper lemmas about batching -/

theorem chunks_nil {α} (b : Nat) : chunks b ([] : List α) = [] := by
  simp [chunks]

theorem chunks_cons {α} (b : Nat) (x : α) (xs : List α) :
    chunks b (x :: xs) = (x :: xs.take (b - 1)) :: chunks b (xs.drop (b - 1)) := by
  simp [chunks]

theorem chunks_join_aux {α} (b : Nat) :
    ∀ (n : Nat) (l : List α), l.length ≤ n → (chunks b l).flatten = l := by
  intro n
  induction n with
  | zero =>
    intro l hl
    have hnil : l = [] := List.eq_nil_of_length_eq_zero (Nat.le_zero.mp hl)
    subst hnil
    simp [chunks]
  | succ n ih =>
    intro l hl
    match l with
    | [] => simp [chunks]
    | x :: xs =>
      rw [chunks_cons, List.flatten_cons,
        ih (xs.drop (b - 1)) (by simp only [List.length_drop]; simp only [List.length_cons] at hl; omega)]
      simp [List.take_append_drop]

theorem chunks_join {α} (b : Nat) (l : List α) : (chunks b l).flatten = l :=
  chunks_join_aux b l.length l le_rfl

theorem chunks_cons_of_ne_nil {α} (b : Nat) (hb : 1 ≤ b) (l : List α)
    (hl : l ≠ []) : chunks b l = l.take b :: chunks b (l.drop b) := by
  match l with
  | [] => exact absurd rfl hl
  | x :: xs =>
    obtain ⟨c, rfl⟩ : ∃ c, b = c + 1 := ⟨b - 1, by omega⟩
    rw [chunks_cons]
    simp [List.take_succ_cons, List.drop_succ_cons]

theorem mem_chunks_ne_nil {α} (b : Nat) :
    ∀ (n : Nat) (l : List α), l.length ≤ n → ∀ c ∈ chunks b l, c ≠ [] := by
  intro n
  induction n with
  | zero =>
    intro l hl
    have hnil : l = [] := List.eq_nil_of_length_eq_zero (Nat.le_zero.mp hl)
    subst hnil
    simp [chunks]
  | succ n ih =>
    intro l hl c hc
    match l with
    | [] => simp [chunks] at hc
    | x :: xs =>
      rw [chunks_cons] at hc
      rcases List.mem_cons.mp hc with h | h
      · subst h; exact List.cons_ne_nil _ _
      · exact ih (xs.drop (b - 1)) (by simp only [List.length_drop]; simp only [List.length_cons] at hl; omega) c h

theorem chunks_eq_nil_iff {α} (b : Nat) (l : List α) :
    chunks b l = [] ↔ l = [] := by
  match l with
  | [] => simp [chunks]
  | x :: xs => rw [chunks_cons]; simp

/-! ### Helper lemmas about the batch loop trace -/

theorem runChunks_nil (respond : List (Str × Str) → SummaryMap) (total done : Nat) :
    runChunks respond total done [] =
      ⟨[], [], [], [str "**Summarising complete!**"]⟩ := rfl

theorem runChunks_out (respond : List (Str × Str) → SummaryMap) (total : Nat) :
    ∀ (cs : List (List Thread)) (done : Nat),
      (runChunks respond total done cs).out = (cs.map (applyBatch respond)).flatten := by
  intro cs
  induction cs with
  | nil => intro done; rfl
  | cons c cs ih => intro done; simp [runChunks, ih]

theorem runChunks_calls (respond : List (Str × Str) → SummaryMap) (total : Nat) :
    ∀ (cs : List (List Thread)) (done : Nat),
      (runChunks respond total done cs).calls = cs.map (fun c => c.map payloadEntry) := by
  intro cs
  induction cs with
  | nil => intro done; rfl
  | cons c cs ih => intro done; simp [runChunks, ih]

theorem runChunks_fracs_cons (respond : List (Str × Str) → SummaryMap)
    (total done : Nat) (c : List Thread) (cs : List (List Thread)) :
    (runChunks respond total done (c :: cs)).fracs =
      (((done + c.length : Nat) : ℚ) / (total : ℚ)) ::
        (runChunks respond total (done + c.length) cs).fracs := rfl

theorem runChunks_fracs_chain (respond : List (Str × Str) → SummaryMap)
    {total : Nat} (ht : 0 < total) :
    ∀ (cs : List (List Thread)) (done : Nat), (∀ c ∈ cs, c ≠ []) →
      List.Chain' (fun a b => a < b) (runChunks respond total done cs).fracs := by
  intro cs
  induction cs with
  | nil => intro done _; exact List.chain'_nil
  | cons c cs ih =>
    intro done hne
    rw [runChunks_fracs_cons]
    refine List.chain'_cons'.mpr ⟨?_, ih (done + c.length) (fun d hd => hne d (List.mem_cons_of_mem _ hd))⟩
    intro y hy
    match cs with
    | [] => simp [runChunks_nil] at hy
    | c' :: cs' =>
      rw [runChunks_fracs_cons] at hy
      simp only [List.head?_cons, Option.mem_def, Option.some.injEq] at hy
      subst hy
      have hc' : c' ≠ [] := hne c' (by simp)
      have hlen : 0 < c'.length := List.length_pos.mpr hc'
      have htq : (0 : ℚ) < (total : ℚ) := by exact_mod_cast ht
      refine (div_lt_div_iff_of_pos_right htq).mpr ?_
      exact_mod_cast Nat.lt_add_of_pos_right hlen

theorem runChunks_fracs_getLast (respond : List (Str × Str) → SummaryMap)
    (total : Nat) :
    ∀ (cs : List (List Thread)) (done : Nat), cs ≠ [] →
      (runChunks respond total done cs).fracs.getLast? =
        some (((done + (cs.map List.length).sum : Nat) : ℚ) / (total : ℚ)) := by
  intro cs
  induction cs with
  | nil => intro done h; exact absurd rfl h
  | cons c cs ih =>
    intro done _
    match cs with
    | [] =>
      rw [runChunks_fracs_cons, runChunks_nil]
      simp
    | c' :: cs' =>
      rw [runChunks_fracs_cons, runChunks_fracs_cons, List.getLast?_cons_cons,
        ← runChunks_fracs_cons respond total (done + c.length) c' cs',
        ih (done + c.length) (by simp)]
      simp only [List.map_cons, List.sum_cons, Option.some.injEq]
      congr 1
      push_cast
      ring

/-! ### Concrete sample data for evaluating the theorems -/

/-- A concrete thread with a one-character id. -/
def mkT (i : Char) : Thread :=
  { id := [i], title := str "Title " ++ [i], body := str "b", comments := str "c",
    url := str "u", created := str "2024-01-01" }

/-- Twelve concrete threads. -/
def twelveThreads : List Thread := (str "abcdefghijkl").map mkT

/-- A model collaborator that returns an empty mapping for every payload. -/
def respond0 : List (Str × Str) → SummaryMap := fun _ => []

/-! ### Claims -/

/-- Claim C5: for every thread list and every batch size `b ≥ 1`, the
consecutive slices `threads[i:i+b]` taken by the Summarizer, concatenated
back in order, equal the original list exactly: same elements, same
order, same count. -/
theorem C5_batches_concat_id (threads : List Thread) (b : Nat) (hb : 1 ≤ b) :
    (chunks b threads).flatten = threads :=
  chunks_join b threads

theorem C5_batches_concat_id_witness :
    1 ≤ 2 ∧ (chunks 2 [mkT 'x', mkT 'y', mkT 'z']).flatten = [mkT 'x', mkT 'y', mkT 'z'] :=
  ⟨by decide, C5_batches_concat_id [mkT 'x', mkT 'y', mkT 'z'] 2 (by decide)⟩

/-- Claim C10: called with an empty thread list, `summarise_threads`
issues zero language-model calls, never reports a completion fraction
(so the division `done/total` with `total = 0` is never evaluated), and
terminates normally with the completion status written. -/
theorem C10_empty_list_run (respond : List (Str × Str) → SummaryMap) (b : Nat) :
    (summarise_threads respond [] b).calls = [] ∧
    (summarise_threads respond [] b).fracs = [] ∧
    (summarise_threads respond [] b).statuses = [str "**Summarising complete!**"] ∧
    (summarise_threads respond [] b).out = [] := by
  have h : chunks b ([] : List Thread) = [] := chunks_nil b
  simp [summarise_threads, h, runChunks_nil]

/-- Claim C1: with 12 fetched threads and batch size 6,
`summarise_threads` issues exactly 2 language-model calls reporting the
completion fractions 0.5 then 1.0; for every non-empty thread list the
reported fractions (threads summarised so far / total) are strictly
increasing across batches and end at 1.0. -/
theorem C1_progress_fractions (respond : List (Str × Str) → SummaryMap)
    (threads : List Thread) (b : Nat) (hb : 1 ≤ b) (hne : threads ≠ []) :
    (threads.length = 12 → b = 6 →
      (summarise_threads respond threads b).calls.length = 2 ∧
      (summarise_threads respond threads b).fracs = [1 / 2, 1]) ∧
    List.Chain' (fun x y => x < y) (summarise_threads respond threads b).fracs ∧
    (summarise_threads respond threads b).fracs.getLast? = some 1 := by
  have ht : 0 < threads.length := List.length_pos.mpr hne
  refine ⟨?_, ?_, ?_⟩
  · intro h12 hb6
    subst hb6
    have hdlen : (threads.drop 6).length = 6 := by rw [List.length_drop, h12]
    have hdne : threads.drop 6 ≠ [] := by
      intro h
      rw [h] at hdlen
      simp at hdlen
    have hdd : (threads.drop 6).drop 6 = [] := by
      apply List.drop_eq_nil_of_le
      omega
    have hc : chunks 6 threads = [threads.take 6, (threads.drop 6).take 6] := by
      rw [chunks_cons_of_ne_nil 6 (by omega) threads hne,
        chunks_cons_of_ne_nil 6 (by omega) (threads.drop 6) hdne, hdd, chunks_nil]
    have hl1 : (threads.take 6).length = 6 := by
      rw [List.length_take, h12]
      rfl
    have hl2 : ((threads.drop 6).take 6).length = 6 := by
      rw [List.length_take, hdlen]
      rfl
    constructor
    · simp only [summarise_threads]
      rw [runChunks_calls, hc]
      simp
    · simp only [summarise_threads]
      rw [hc, h12, runChunks_fracs_cons, runChunks_fracs_cons, runChunks_nil,
        hl1, hl2]
      norm_num
  · simp only [summarise_threads]
    exact runChunks_fracs_chain respond ht (chunks b threads) 0
      (mem_chunks_ne_nil b threads.length threads le_rfl)
  · simp only [summarise_threads]
    rw [runChunks_fracs_getLast respond threads.length (chunks b threads) 0
      (by rw [Ne, chunks_eq_nil_iff]; exact hne)]
    have hsum : ((chunks b threads).map List.length).sum = threads.length := by
      rw [← List.length_flatten, chunks_join]
    have htq : ((threads.length : ℚ)) ≠ 0 := Nat.cast_ne_zero.mpr (by omega)
    rw [show 0 + ((chunks b threads).map List.length).sum = threads.length from
      by rw [Nat.zero_add, hsum]]
    rw [div_self htq]

theorem C1_progress_fractions_witness :
    1 ≤ 6 ∧ twelveThreads ≠ [] ∧
    ((twelveThreads.length = 12 → 6 = 6 →
      (summarise_threads respond0 twelveThreads 6).calls.length = 2 ∧
      (summarise_threads respond0 twelveThreads 6).fracs = [1 / 2, 1]) ∧
    List.Chain' (fun x y => x < y) (summarise_threads respond0 twelveThreads 6).fracs ∧
    (summarise_threads respond0 twelveThreads 6).fracs.getLast? = some 1) :=
  ⟨by decide, by decide,
    C1_progress_fractions respond0 twelveThreads 6 (by decide) (by decide)⟩

theorem applyBatch_length (respond : List (Str × Str) → SummaryMap)
    (c : List Thread) : (applyBatch respond c).length = c.length := by
  simp [applyBatch]

theorem applyBatch_map_erase (respond : List (Str × Str) → SummaryMap)
    (c : List Thread) :
    (applyBatch respond c).map eraseSummary = c.map eraseSummary := by
  simp only [applyBatch, List.map_map]
  rfl

/-- Claim C9: `summarise_threads` changes only the `summary` field: erasing
the summaries of the output gives back the input list with its summaries
erased (so `id`, `title`, `body`, `comments`, `url`, `created` of every
thread, and the order and count of the list, are unchanged), and every
output thread carries an attached summary (the single assignment of its
one batch). -/
theorem C9_frame_only_summary (respond : List (Str × Str) → SummaryMap)
    (threads : List Thread) (b : Nat) (hb : 1 ≤ b) :
    (summarise_threads respond threads b).out.map eraseSummary =
      threads.map eraseSummary ∧
    ∀ t ∈ (summarise_threads respond threads b).out, t.summary.isSome := by
  constructor
  · simp only [summarise_threads, runChunks_out]
    rw [List.map_flatten, List.map_map]
    have hfun : (List.map eraseSummary ∘ applyBatch respond) =
        fun c => c.map eraseSummary := funext (applyBatch_map_erase respond)
    rw [hfun, ← List.map_flatten, chunks_join]
  · intro t ht
    simp only [summarise_threads, runChunks_out] at ht
    rcases List.mem_flatten.mp ht with ⟨l, hl, htl⟩
    rcases List.mem_map.mp hl with ⟨c, _, rfl⟩
    simp only [applyBatch, List.mem_map] at htl
    rcases htl with ⟨t2, _, rfl⟩
    simp

theorem C9_frame_only_summary_witness :
    1 ≤ 6 ∧
    ((summarise_threads respond0 [mkT 'a'] 6).out.map eraseSummary =
      [mkT 'a'].map eraseSummary ∧
    ∀ t ∈ (summarise_threads respond0 [mkT 'a'] 6).out, t.summary.isSome) :=
  ⟨by decide, C9_frame_only_summary respond0 [mkT 'a'] 6 (by decide)⟩

/-- Claim C3: if the parsed model response for a batch lacks the id key of
a thread of that batch, `summarise_threads` attaches `summary = {}` (the
empty mapping) to that thread; the batch is still processed in full (the
attach loop is total), so a missing id key never aborts the batch or the
run. -/
theorem C3_missing_id_empty_summary (respond : List (Str × Str) → SummaryMap)
    (chunk : List Thread) (i : Nat) (hi : i < chunk.length)
    (hmiss : List.lookup (chunk[i].id) (respond (chunk.map payloadEntry)) = none) :
    (applyBatch respond chunk).length = chunk.length ∧
    ((applyBatch respond chunk)[i]?).map Thread.summary = some (some []) := by
  refine ⟨applyBatch_length respond chunk, ?_⟩
  simp only [applyBatch, List.getElem?_map]
  rw [List.getElem?_eq_getElem hi]
  simp [hmiss]

theorem C3_missing_id_empty_summary_witness :
    0 < ([mkT 'a'] : List Thread).length ∧
    List.lookup (([mkT 'a'] : List Thread)[0].id)
      (respond0 ([mkT 'a'].map payloadEntry)) = none ∧
    ((applyBatch respond0 [mkT 'a']).length = ([mkT 'a'] : List Thread).length ∧
      ((applyBatch respond0 [mkT 'a'])[0]?).map Thread.summary = some (some [])) :=
  ⟨by decide, rfl, C3_missing_id_empty_summary respond0 [mkT 'a'] 0 (by decide) rfl⟩

theorem corpusLines_of_enriched :
    ∀ (threads : List Thread), (∀ t ∈ threads, t.summary.isSome) →
      corpusLines threads = some (threads.map enrichedLine) := by
  intro threads
  induction threads with
  | nil => intro _; rfl
  | cons t ts ih =>
    intro h
    rcases Option.isSome_iff_exists.mp (h t (by simp)) with ⟨m, hm⟩
    simp only [corpusLines]
    rw [hm, ih (fun x hx => h x (by simp [hx]))]
    simp [enrichedLine, hm]

/-- Claim C2: for a summary-enriched thread list, the corpus built by
`generate_report` is the joined per-thread title-gist-citation string
sliced to its first 15000 characters: when the joined string exceeds
15000 characters the corpus has exactly length 15000, and when it is at
most 15000 characters the slice is the joined string unmodified. -/
theorem C2_corpus_truncation (threads : List Thread)
    (h : ∀ t ∈ threads, t.summary.isSome) :
    corpus threads = some ((corpusJoined threads).take 15000) ∧
    (15000 < (corpusJoined threads).length →
      ((corpusJoined threads).take 15000).length = 15000) ∧
    ((corpusJoined threads).length ≤ 15000 →
      (corpusJoined threads).take 15000 = corpusJoined threads) := by
  refine ⟨?_, ?_, ?_⟩
  · rw [corpus, corpusLines_of_enriched threads h]
    simp [corpusJoined]
  · intro hlen
    rw [List.length_take]
    omega
  · intro hlen
    exact List.take_of_length_le hlen

/-- A concrete summary-enriched thread. -/
def enrichedT : Thread :=
  { mkT 'a' with summary := some [(str "gist", str "g")] }

theorem C2_corpus_truncation_witness :
    (∀ t ∈ [enrichedT], t.summary.isSome) ∧
    (corpus [enrichedT] = some ((corpusJoined [enrichedT]).take 15000) ∧
    (15000 < (corpusJoined [enrichedT]).length →
      ((corpusJoined [enrichedT]).take 15000).length = 15000) ∧
    ((corpusJoined [enrichedT]).length ≤ 15000 →
      (corpusJoined [enrichedT]).take 15000 = corpusJoined [enrichedT])) :=
  ⟨by decide, C2_corpus_truncation [enrichedT] (by decide)⟩

/-- Claim C4: with a non-empty subreddit, a questions text whose lines
are all blank blocks the run before any pipeline stage, and a questions
text with six or more non-blank lines proceeds with exactly the first 5
of them. -/
theorem C4_questions_gate (sub qs_text : Str) (hsub : sub ≠ []) :
    (nonBlankQuestions qs_text = [] →
      startRun sub qs_text = RunOutcome.blockedNoQuestions) ∧
    (6 ≤ (nonBlankQuestions qs_text).length →
      startRun sub qs_text =
        RunOutcome.proceeds ((nonBlankQuestions qs_text).take 5) ∧
      ((nonBlankQuestions qs_text).take 5).length = 5) := by
  have hsubE : sub.isEmpty = false := by
    cases sub with
    | nil => exact absurd rfl hsub
    | cons a l => rfl
  constructor
  · intro h0
    simp [startRun, parseQuestions, hsubE, h0]
  · intro h6
    have hlen : ((nonBlankQuestions qs_text).take 5).length = 5 := by
      rw [List.length_take]
      omega
    have hqE : ((nonBlankQuestions qs_text).take 5).isEmpty = false := by
      cases hq2 : (nonBlankQuestions qs_text).take 5 with
      | nil => rw [hq2] at hlen; simp at hlen
      | cons a l => rfl
    exact ⟨by simp [startRun, parseQuestions, hsubE, hqE], hlen⟩

theorem C4_questions_gate_witness :
    str "r" ≠ [] ∧
    ((nonBlankQuestions (str "q1\nq2\n\nq3\nq4\nq5\nq6") = [] →
      startRun (str "r") (str "q1\nq2\n\nq3\nq4\nq5\nq6") =
        RunOutcome.blockedNoQuestions) ∧
    (6 ≤ (nonBlankQuestions (str "q1\nq2\n\nq3\nq4\nq5\nq6")).length →
      startRun (str "r") (str "q1\nq2\n\nq3\nq4\nq5\nq6") =
        RunOutcome.proceeds
          ((nonBlankQuestions (str "q1\nq2\n\nq3\nq4\nq5\nq6")).take 5) ∧
      ((nonBlankQuestions (str "q1\nq2\n\nq3\nq4\nq5\nq6")).take 5).length = 5)) :=
  ⟨by decide, C4_questions_gate (str "r") (str "q1\nq2\n\nq3\nq4\nq5\nq6") (by decide)⟩

/-- Claim C6: the text export returns the report string verbatim (the
`StringIO` buffer holds exactly the written report, and the download
content equals it), and two invocations on the same report yield
identical output. -/
theorem C6_text_export_verbatim (report : Str) :
    toText report = report ∧ toText report = toText report :=
  ⟨rfl, rfl⟩

/-- Claim C7: when the body rendering attempt raises inside
`chapter_body`, the `except` branch substitutes the placeholder string
`"Exception"` as the body content instead of propagating the error, so
the export stage does not fail on such reports. -/
theorem C7_render_exception_placeholder (tryRender : Str → Option Str)
    (text : Str) (hfail : tryRender text = none) :
    chapter_body tryRender text = str "Exception" := by
  simp [chapter_body, hfail]

theorem C7_render_exception_placeholder_witness :
    (fun _ : Str => (none : Option Str)) (str "report") = none ∧
    chapter_body (fun _ : Str => (none : Option Str)) (str "report") = str "Exception" :=
  ⟨rfl, C7_render_exception_placeholder (fun _ => none) (str "report") rfl⟩

/-- Claim C8 (refuted by the code): the PDF export of src/app.py line 259
calls `build_pdf` as a bare name, but `build_pdf` is bound only as an
attribute of the `class PDF` body (lines 237-258) and a Python class
body does not bind its names in the enclosing scope; the name lookup
therefore fails and every evaluation of the export raises `NameError`
instead of returning a PDF byte stream. -/
theorem C8_pdf_export_raises_nameError :
    ("build_pdf" ∈ classPDFAttrs ∧ "build_pdf" ∉ moduleScopeAt259) ∧
    ∀ report : Str, toPdfAt259 report = PdfExportResult.nameError "build_pdf" := by
  refine ⟨⟨by decide, by decide⟩, ?_⟩
  intro report
  rw [toPdfAt259]
  rw [show moduleScopeAt259.contains "build_pdf" = false from by decide]
  rfl

end RedditResearch
